import Mathlib

/-!
# Verification of the postboy sync models (`src/crates/models/src/sync.rs`)

Shallow embedding of the offline-first change-tracking subsystem:
the `SyncChange` record constructors, the bounded deduplicating
`PendingChanges` queue (`push`, `drain`, `remove_synced`), the
`SyncSession` lifecycle and `SyncConfig::auto_sync_enabled`.

Rust's effectful `new_id()` / `now()` calls are embedded by passing the
generated id / current timestamp as an explicit argument.  `Uuid` ids are
modelled as `Nat`, `Timestamp` (`i64` milliseconds) as `Int`,
`serde_json::Value` as an opaque `Json` type whose only distinguished
value is `null`.  A `&mut self` method becomes a function returning the
new state (paired with the `Result` where the method is fallible); in
particular `PendingChanges::push` mutates `self.changes` with `retain`
*before* the capacity check, so the embedded `push` returns the retained
state even in the `Err` case, exactly as the Rust does.
-/

namespace Postboy

/-- Opaque model of `serde_json::Value`: the development only ever needs to
distinguish `Null` from non-null payloads, but we keep a couple of
constructors so distinct payloads exist. -/
inductive Json where
  | null : Json
  | str (s : String) : Json
  | num (n : Int) : Json
deriving DecidableEq, Repr

/-- `SyncItemType` (sync.rs lines 168-174). -/
inductive SyncItemType where
  | Collection : SyncItemType
  | Folder : SyncItemType
  | Request : SyncItemType
  | Environment : SyncItemType
deriving DecidableEq, Repr

/-- `SyncOperation` (sync.rs lines 246-251). -/
inductive SyncOperation where
  | Create : SyncOperation
  | Update : SyncOperation
  | Delete : SyncOperation
deriving DecidableEq, Repr

/-- `SyncMode` (sync.rs lines 13-26). -/
inductive SyncMode where
  | Offline : SyncMode
  | OnlineAuto : SyncMode
  | OnlineManual : SyncMode
  | Hybrid : SyncMode
deriving DecidableEq, Repr

/-- `ConflictStrategy` (sync.rs lines 138-151). -/
inductive ConflictStrategy where
  | LocalWins : ConflictStrategy
  | RemoteWins : ConflictStrategy
  | LastWriteWins : ConflictStrategy
  | Manual : ConflictStrategy
deriving DecidableEq, Repr

/-- `ConflictChoice` (sync.rs lines 452-457). -/
inductive ConflictChoice where
  | Local : ConflictChoice
  | Remote : ConflictChoice
  | Merged (value : Json) : ConflictChoice
deriving DecidableEq, Repr

/-- `SyncError` (sync.rs lines 403-428); string payloads kept as `String`. -/
inductive SyncError where
  | NotConfigured : SyncError
  | ConnectionFailed (msg : String) : SyncError
  | AuthenticationFailed : SyncError
  | ServerError (msg : String) : SyncError
  | Conflict (item_type item_id : String) : SyncError
  | QueueFull : SyncError
  | NetworkError (msg : String) : SyncError
  | InvalidData (msg : String) : SyncError
deriving DecidableEq, Repr

/-- `SyncChange` (sync.rs lines 188-198). -/
structure SyncChange where
  change_id : Nat
  item_type : SyncItemType
  item_id : Nat
  operation : SyncOperation
  version : Int
  data : Json
  timestamp : Int
  synced : Bool
deriving DecidableEq, Repr

/-- `SyncChange::create` (sync.rs lines 201-212); `cid` is the id produced
by `new_id()` and `t` the timestamp produced by `now()`. -/
def SyncChange.create (cid : Nat) (t : Int) (item_type : SyncItemType)
    (item_id : Nat) (data : Json) : SyncChange :=
  { change_id := cid
    item_type := item_type
    item_id := item_id
    operation := SyncOperation.Create
    version := 1
    data := data
    timestamp := t
    synced := false }

/-- `SyncChange::update` (sync.rs lines 214-225). -/
def SyncChange.update (cid : Nat) (t : Int) (item_type : SyncItemType)
    (item_id : Nat) (version : Int) (data : Json) : SyncChange :=
  { change_id := cid
    item_type := item_type
    item_id := item_id
    operation := SyncOperation.Update
    version := version
    data := data
    timestamp := t
    synced := false }

/-- `SyncChange::delete` (sync.rs lines 227-238). -/
def SyncChange.delete (cid : Nat) (t : Int) (item_type : SyncItemType)
    (item_id : Nat) (version : Int) : SyncChange :=
  { change_id := cid
    item_type := item_type
    item_id := item_id
    operation := SyncOperation.Delete
    version := version
    data := Json.null
    timestamp := t
    synced := false }

/-- `SyncChange::mark_synced` (sync.rs lines 240-242). -/
def SyncChange.mark_synced (c : SyncChange) : SyncChange :=
  { c with synced := true }

/-- The Rust condition `c.item_id == change.item_id && c.item_type == change.item_type`
used by `PendingChanges::push`'s `retain` closure (sync.rs lines 363-365). -/
def sameItem (c change : SyncChange) : Bool :=
  decide (c.item_id = change.item_id) && decide (c.item_type = change.item_type)

/-- `PendingChanges` (sync.rs lines 347-351). -/
structure PendingChanges where
  changes : List SyncChange
  max_size : Nat
deriving DecidableEq, Repr

/-- `PendingChanges::new` (sync.rs lines 354-359): `Vec::with_capacity`
only pre-allocates, the vector starts empty. -/
def PendingChanges.new (max_size : Nat) : PendingChanges :=
  { changes := [], max_size := max_size }

/-- The `#[derive(Default)]` instance of `PendingChanges` (sync.rs line 347):
`Vec::default()` is the empty vector and `usize::default()` is `0`. -/
def PendingChanges.deriveDefault : PendingChanges :=
  { changes := [], max_size := 0 }

/-- `PendingChanges::push` (sync.rs lines 361-374).  The Rust method first
mutates `self.changes` with `retain` (removing every record for the same
`(item_id, item_type)`), then checks capacity; on `Err(QueueFull)` the
retained state is kept (the `retain` is *not* rolled back), so the result
is the new state paired with the `Result`. -/
def PendingChanges.push (q : PendingChanges) (change : SyncChange) :
    PendingChanges × Except SyncError Unit :=
  let retained := q.changes.filter (fun c => !(sameItem c change))
  if q.max_size ≤ retained.length then
    ({ q with changes := retained }, Except.error SyncError.QueueFull)
  else
    ({ q with changes := retained ++ [change] }, Except.ok ())

/-- `PendingChanges::drain` (sync.rs lines 376-378): `std::mem::take`
returns the current vector and leaves `Vec::default()` (empty) behind. -/
def PendingChanges.drain (q : PendingChanges) :
    List SyncChange × PendingChanges :=
  (q.changes, { q with changes := [] })

/-- `PendingChanges::is_empty` (sync.rs lines 380-382). -/
def PendingChanges.is_empty (q : PendingChanges) : Bool :=
  q.changes.isEmpty

/-- `PendingChanges::len` (sync.rs lines 384-386). -/
def PendingChanges.len (q : PendingChanges) : Nat :=
  q.changes.length

/-- `PendingChanges::for_item_type` (sync.rs lines 389-394). -/
def PendingChanges.for_item_type (q : PendingChanges) (item_type : SyncItemType) :
    List SyncChange :=
  q.changes.filter (fun c => decide (c.item_type = item_type))

/-- `PendingChanges::remove_synced` (sync.rs lines 397-399). -/
def PendingChanges.remove_synced (q : PendingChanges) : PendingChanges :=
  { q with changes := q.changes.filter (fun c => !c.synced) }

/-- The state after a `push`, discarding the `Result` (the Rust caller's
`&mut self` view of the queue whether or not the push succeeded). -/
def pushStep (q : PendingChanges) (c : SyncChange) : PendingChanges :=
  (q.push c).1

/-- Whether a `push` returned `Ok`. -/
def pushOk (q : PendingChanges) (c : SyncChange) : Bool :=
  match (q.push c).2 with
  | Except.ok _ => true
  | Except.error _ => false

/-- Runs a sequence of `push` calls, keeping the queue state across both
successful and failed pushes, as a Rust caller holding `&mut self` would. -/
def pushList (q : PendingChanges) : List SyncChange → PendingChanges
  | [] => q
  | c :: cs => pushList (pushStep q c) cs

/-- Does the record `c` carry the pair `(i, t)`? -/
def pairMatch (c : SyncChange) (i : Nat) (t : SyncItemType) : Bool :=
  decide (c.item_id = i) && decide (c.item_type = t)

/-- Replays a sequence of `push` calls from state `q` and returns the last
change for the pair `(i, t)` whose push returned `Ok`, if any. -/
def lastOkPush (q : PendingChanges) (i : Nat) (t : SyncItemType) :
    List SyncChange → Option SyncChange
  | [] => none
  | c :: cs =>
    match lastOkPush (pushStep q c) i t cs with
    | some d => some d
    | none => if pushOk q c && pairMatch c i t then some c else none

/-- `SyncConfig` (sync.rs lines 54-76). -/
structure SyncConfig where
  mode : SyncMode
  server_url : Option String
  api_key : Option String
  device_id : Nat
  last_sync : Option Int
  auto_sync_interval : Nat
  conflict_strategy : ConflictStrategy
deriving DecidableEq, Repr

/-- `SyncConfig::is_online` (sync.rs lines 112-117). -/
def SyncConfig.is_online (cfg : SyncConfig) : Bool :=
  match cfg.mode with
  | SyncMode.OnlineAuto => true
  | SyncMode.OnlineManual => true
  | SyncMode.Hybrid => true
  | SyncMode.Offline => false

/-- `SyncConfig::auto_sync_enabled` (sync.rs lines 120-122). -/
def SyncConfig.auto_sync_enabled (cfg : SyncConfig) : Bool :=
  cfg.is_online && decide (0 < cfg.auto_sync_interval)

/-- `SyncSession` (sync.rs lines 311-319); conflicts are kept abstract as a
count-irrelevant list of conflict ids, the session claims only touch the
timestamp fields. -/
structure SyncSession where
  session_id : Nat
  started_at : Int
  changes_pushed : List SyncChange
  changes_pulled : List SyncChange
  conflicts : List Nat
  completed_at : Option Int
deriving DecidableEq, Repr

/-- `SyncSession::new` (sync.rs lines 322-331); `sid` is the id produced
by `new_id()` and `t` the timestamp produced by `now()`. -/
def SyncSession.new (sid : Nat) (t : Int) : SyncSession :=
  { session_id := sid
    started_at := t
    changes_pushed := []
    changes_pulled := []
    conflicts := []
    completed_at := none }

/-- `SyncSession::complete` (sync.rs lines 333-335); `t` is the timestamp
produced by `now()` at the moment of the call.  Note the Rust method
unconditionally overwrites `completed_at`. -/
def SyncSession.complete (s : SyncSession) (t : Int) : SyncSession :=
  { s with completed_at := some t }

/-- `SyncSession::is_complete` (sync.rs lines 337-339). -/
def SyncSession.is_complete (s : SyncSession) : Bool :=
  s.completed_at.isSome

/-- `SyncSession::duration` (sync.rs lines 341-343). -/
def SyncSession.duration (s : SyncSession) : Option Int :=
  s.completed_at.map (fun e => e - s.started_at)

/-- Modelled from the spec: the repository only declares the
`ConflictStrategy` enum (sync.rs lines 138-151); no code under `src/`
implements the LastWriteWins resolution policy itself.  Spec section 4.3:
"LastWriteWins: compare the conflicting records' timestamps (not version
numbers); the later timestamp wins; ties favor local."  `localTs` and
`remoteTs` are the timestamps of the conflicting local and remote
records. -/
def lastWriteWins (localTs remoteTs : Int) : ConflictChoice :=
  if localTs < remoteTs then ConflictChoice.Remote else ConflictChoice.Local

/-- Queue states reachable from `PendingChanges.new` by `push`, `drain`
and `remove_synced` (the mutating queue API of sync.rs lines 353-400). -/
inductive Reachable : PendingChanges → Prop where
  | new (max_size : Nat) : Reachable (PendingChanges.new max_size)
  | push (q : PendingChanges) (c : SyncChange) :
      Reachable q → Reachable (pushStep q c)
  | drain (q : PendingChanges) :
      Reachable q → Reachable (q.drain).2
  | remove_synced (q : PendingChanges) :
      Reachable q → Reachable q.remove_synced

/-- The queue invariant maintained by the API: the queue never exceeds its
capacity, and holds at most one record per `(item_id, item_type)` pair. -/
def QueueInv (q : PendingChanges) : Prop :=
  q.changes.length ≤ q.max_size ∧
  ∀ i t, (q.changes.filter (fun c => pairMatch c i t)).length ≤ 1

/-- Concrete sample records used by witnesses. -/
def sampleCreate : SyncChange :=
  SyncChange.create 0 0 SyncItemType.Request 0 Json.null

def sampleOther : SyncChange :=
  SyncChange.create 1 1 SyncItemType.Collection 1 (Json.num 2)

/-! ## General list lemmas shared by the proofs -/

theorem length_filter_not_add_length_filter {α : Type} (p : α → Bool)
    (l : List α) :
    (l.filter fun a => !p a).length + (l.filter p).length = l.length := by
  induction l with
  | nil => rfl
  | cons a l ih =>
    cases h : p a <;> simp [List.filter_cons, h] <;> omega

theorem length_filter_filter_le {α : Type} (p q : α → Bool) (l : List α) :
    ((l.filter p).filter q).length ≤ (l.filter q).length :=
  ((List.filter_sublist l).filter q).length_le

theorem find?_filter_eq_of_imp {α : Type} (p keep : α → Bool)
    (h : ∀ d, p d = true → keep d = true) :
    ∀ l : List α, (l.filter keep).find? p = l.find? p := by
  intro l
  induction l with
  | nil => rfl
  | cons a l ih =>
    cases hk : keep a
    · have hp : p a = false := by
        cases hpa : p a
        · rfl
        · exact absurd (h a hpa) (by simp [hk])
      simp [List.filter_cons, hk, hp, ih]
    · cases hp : p a <;> simp [List.filter_cons, hk, hp, ih]

/-! ## Queue invariant lemmas -/

theorem sameItem_eq_true {c d : SyncChange} :
    sameItem c d = true ↔ c.item_id = d.item_id ∧ c.item_type = d.item_type := by
  simp [sameItem]

theorem pairMatch_eq_true {c : SyncChange} {i : Nat} {t : SyncItemType} :
    pairMatch c i t = true ↔ c.item_id = i ∧ c.item_type = t := by
  simp [pairMatch]

/-- A record that survives the dedup `retain` of a push of `c` cannot
carry `c`'s pair. -/
theorem pairMatch_eq_false_of_retained {d c : SyncChange} {i : Nat}
    {t : SyncItemType} (hs : sameItem d c = false)
    (hc : pairMatch c i t = true) : pairMatch d i t = false := by
  cases hd : pairMatch d i t
  · rfl
  · obtain ⟨hdi, hdt⟩ := pairMatch_eq_true.mp hd
    obtain ⟨hci, hct⟩ := pairMatch_eq_true.mp hc
    have : sameItem d c = true :=
      sameItem_eq_true.mpr ⟨hdi.trans hci.symm, hdt.trans hct.symm⟩
    rw [this] at hs
    cases hs

theorem queueInv_new (m : Nat) : QueueInv (PendingChanges.new m) := by
  refine ⟨by simp [PendingChanges.new], ?_⟩
  intro i t
  simp [PendingChanges.new]

theorem queueInv_pushStep {q : PendingChanges} (h : QueueInv q)
    (c : SyncChange) : QueueInv (pushStep q c) := by
  obtain ⟨hlen, hpair⟩ := h
  unfold pushStep PendingChanges.push
  by_cases hcond :
      q.max_size ≤ (q.changes.filter fun d => !(sameItem d c)).length
  · rw [if_pos hcond]
    refine ⟨le_trans (List.length_filter_le _ _) hlen, ?_⟩
    intro i t
    exact le_trans (length_filter_filter_le _ _ _) (hpair i t)
  · rw [if_neg hcond]
    constructor
    · simpa using Nat.lt_of_not_le hcond
    · intro i t
      rw [List.filter_append]
      cases hpm : pairMatch c i t
      · have h1 : ([c].filter fun d => pairMatch d i t) = [] := by
          simp [List.filter_cons, hpm]
        rw [h1, List.append_nil]
        exact le_trans (length_filter_filter_le _ _ _) (hpair i t)
      · have h0 : (((q.changes.filter fun d => !(sameItem d c)).filter
            fun d => pairMatch d i t)) = [] := by
          rw [List.filter_eq_nil_iff]
          intro d hd
          have hs : sameItem d c = false := by
            have := (List.mem_filter.mp hd).2
            cases hsc : sameItem d c
            · rfl
            · rw [hsc] at this; cases this
          rw [pairMatch_eq_false_of_retained hs hpm]
          simp
        rw [h0]
        simp [List.filter_cons, hpm]

/-- Under the queue invariant, a push that reports `QueueFull` found no
record for the pushed change's pair, so its dedup `retain` removed
nothing and the queue is unchanged. -/
theorem push_full_state_eq {q : PendingChanges} (h : QueueInv q)
    {c : SyncChange}
    (hcond : q.max_size ≤ (q.changes.filter fun d => !(sameItem d c)).length) :
    (q.changes.filter fun d => !(sameItem d c)) = q.changes ∧
      (q.push c).1 = q ∧ (q.push c).2 = Except.error SyncError.QueueFull := by
  have hle : (q.changes.filter fun d => !(sameItem d c)).length
      ≤ q.changes.length := List.length_filter_le _ _
  have hlen : (q.changes.filter fun d => !(sameItem d c)).length
      = q.changes.length := le_antisymm hle (le_trans h.1 hcond)
  have hret : (q.changes.filter fun d => !(sameItem d c)) = q.changes :=
    List.filter_eq_self.mpr (List.filter_length_eq_length.mp hlen)
  refine ⟨hret, ?_, ?_⟩
  · show (PendingChanges.push q c).1 = q
    unfold PendingChanges.push
    rw [if_pos hcond]
    simp [hret]
  · show (PendingChanges.push q c).2 = Except.error SyncError.QueueFull
    unfold PendingChanges.push
    rw [if_pos hcond]

theorem reachable_queueInv {q : PendingChanges} (h : Reachable q) :
    QueueInv q := by
  induction h with
  | new m => exact queueInv_new m
  | push q c _ ih => exact queueInv_pushStep ih c
  | drain q _ ih =>
    refine ⟨by simp [PendingChanges.drain], ?_⟩
    intro i t
    simp [PendingChanges.drain]
  | remove_synced q _ ih =>
    refine ⟨le_trans (List.length_filter_le _ _) ih.1, ?_⟩
    intro i t
    exact le_trans (length_filter_filter_le _ _ _) (ih.2 i t)

/-- Branch-by-branch description of `push`: result, record list and
capacity of the returned state. -/
theorem push_unfold (q : PendingChanges) (c : SyncChange) :
    (q.push c).2 = (if q.max_size ≤
        (q.changes.filter fun d => !(sameItem d c)).length
      then Except.error SyncError.QueueFull else Except.ok ()) ∧
    (q.push c).1.changes = (if q.max_size ≤
        (q.changes.filter fun d => !(sameItem d c)).length
      then q.changes.filter fun d => !(sameItem d c)
      else (q.changes.filter fun d => !(sameItem d c)) ++ [c]) ∧
    (q.push c).1.max_size = q.max_size := by
  by_cases hcond : q.max_size ≤
      (q.changes.filter fun d => !(sameItem d c)).length <;>
    · unfold PendingChanges.push
      simp [hcond]

theorem queueInv_pushList : ∀ (cs : List SyncChange) (q : PendingChanges),
    QueueInv q → QueueInv (pushList q cs)
  | [], _, h => h
  | c :: cs, q, h => queueInv_pushList cs (pushStep q c) (queueInv_pushStep h c)

/-- If the pushed change does not carry the pair `(i, t)`, no record
removed by its dedup `retain` carries `(i, t)` either. -/
theorem retained_of_pairMatch {d c : SyncChange} {i : Nat} {t : SyncItemType}
    (hpm : pairMatch c i t = false) (hd : pairMatch d i t = true) :
    (!(sameItem d c)) = true := by
  cases hs : sameItem d c
  · rfl
  · obtain ⟨h1, h2⟩ := sameItem_eq_true.mp hs
    obtain ⟨h3, h4⟩ := pairMatch_eq_true.mp hd
    have hc : pairMatch c i t = true :=
      pairMatch_eq_true.mpr ⟨h1.symm.trans h3, h2.symm.trans h4⟩
    rw [hc] at hpm
    cases hpm

/-- One push step, seen through the `(i, t)` record: a successful push of
a change carrying `(i, t)` installs that change as the record, every
other step leaves the `(i, t)` record as it was. -/
theorem find?_pushStep {q : PendingChanges} (h : QueueInv q) (c : SyncChange)
    (i : Nat) (t : SyncItemType) :
    ((pushStep q c).changes.find? fun d => pairMatch d i t) =
      (if pushOk q c && pairMatch c i t then some c
       else q.changes.find? fun d => pairMatch d i t) := by
  by_cases hcond : q.max_size ≤
      (q.changes.filter fun d => !(sameItem d c)).length
  · obtain ⟨hret, hstate, herr⟩ := push_full_state_eq h hcond
    have hok : pushOk q c = false := by simp [pushOk, herr]
    rw [hok]
    simp [pushStep, hstate]
  · have hch : (pushStep q c).changes
        = (q.changes.filter fun d => !(sameItem d c)) ++ [c] := by
      have h1 := (push_unfold q c).2.1
      rw [if_neg hcond] at h1
      exact h1
    have hok : pushOk q c = true := by
      have h1 := (push_unfold q c).1
      rw [if_neg hcond] at h1
      simp [pushOk, h1]
    rw [hok, hch, List.find?_append]
    cases hpm : pairMatch c i t
    · have h1 : ([c].find? fun d => pairMatch d i t) = none := by
        simp [List.find?_cons, hpm]
      rw [h1, Option.or_none]
      simp only [Bool.and_false, if_false]
      exact find?_filter_eq_of_imp _ _
        (fun d hd => retained_of_pairMatch hpm hd) q.changes
    · have h0 : ((q.changes.filter fun d => !(sameItem d c)).find?
          fun d => pairMatch d i t) = none := by
        rw [List.find?_eq_none]
        intro d hd
        have hs : sameItem d c = false := by
          have h2 := (List.mem_filter.mp hd).2
          cases hsc : sameItem d c
          · rfl
          · rw [hsc] at h2; cases h2
        simp [pairMatch_eq_false_of_retained hs hpm]
      rw [h0, Option.none_or]
      simp [List.find?_cons, hpm]

/-- Replaying a push sequence: the `(i, t)` record of the final queue is
the last change for `(i, t)` whose push returned `Ok`, or the starting
queue's record if no push for `(i, t)` ever succeeded. -/
theorem find?_pushList (i : Nat) (t : SyncItemType) :
    ∀ (cs : List SyncChange) (q : PendingChanges), QueueInv q →
      ((pushList q cs).changes.find? fun d => pairMatch d i t) =
        (match lastOkPush q i t cs with
         | some d => some d
         | none => q.changes.find? fun d => pairMatch d i t) := by
  intro cs
  induction cs with
  | nil => intro q h; rfl
  | cons c cs ih =>
    intro q h
    have h' := queueInv_pushStep h c
    show ((pushList (pushStep q c) cs).changes.find?
        fun d => pairMatch d i t) = _
    rw [ih (pushStep q c) h']
    show _ = (match lastOkPush q i t (c :: cs) with
      | some d => some d
      | none => q.changes.find? fun d => pairMatch d i t)
    rw [lastOkPush]
    cases hlast : lastOkPush (pushStep q c) i t cs
    · rw [find?_pushStep h c i t]
      cases hok : (pushOk q c && pairMatch c i t) <;> simp
    · simp

/-! ## Theorems for the claims -/

/-- C1: after any sequence of pushes on a queue created with
`new(max_size)`, the queue holds at most one record for the pair
`(i, t)`, and the record found for `(i, t)` (`find?` is exhaustive given
the at-most-one bound) is exactly the last change for that pair whose
push returned `Ok` — `none` on both sides when no push for the pair ever
succeeded. -/
theorem push_dedup_last_ok_c1 (max_size : Nat) (cs : List SyncChange)
    (i : Nat) (t : SyncItemType) :
    (((pushList (PendingChanges.new max_size) cs).changes.filter
        fun d => pairMatch d i t).length ≤ 1) ∧
    ((pushList (PendingChanges.new max_size) cs).changes.find?
        fun d => pairMatch d i t)
      = lastOkPush (PendingChanges.new max_size) i t cs := by
  constructor
  · exact (queueInv_pushList cs _ (queueInv_new max_size)).2 i t
  · rw [find?_pushList i t cs _ (queueInv_new max_size)]
    cases lastOkPush (PendingChanges.new max_size) i t cs <;>
      simp [PendingChanges.new]

/-- C2: on any queue reachable from `new` by `push`, `drain` and
`remove_synced`, a push that returns `Err(QueueFull)` leaves the queue
exactly as it was — the dedup `retain` is committed before the capacity
check, but on such a queue a failing push can have found no record for
its pair, so the `retain` removed nothing. -/
theorem push_queue_full_unchanged_c2 (q : PendingChanges) (c : SyncChange)
    (hreach : Reachable q)
    (herr : (q.push c).2 = Except.error SyncError.QueueFull) :
    (q.push c).1 = q := by
  have hinv := reachable_queueInv hreach
  by_cases hcond : q.max_size ≤
      (q.changes.filter fun d => !(sameItem d c)).length
  · exact (push_full_state_eq hinv hcond).2.1
  · exfalso
    have hok : (q.push c).2 = Except.ok () := by
      have h1 := (push_unfold q c).1
      rw [if_neg hcond] at h1
      exact h1
    rw [hok] at herr
    cases herr

/-- Witness for C2: the queue `new 0` is reachable, pushing on it
reports `QueueFull`, and the queue is unchanged. -/
theorem push_queue_full_unchanged_c2_witness :
    Reachable (PendingChanges.new 0) ∧
    ((PendingChanges.new 0).push sampleCreate).2
      = Except.error SyncError.QueueFull ∧
    ((PendingChanges.new 0).push sampleCreate).1 = PendingChanges.new 0 :=
  ⟨Reachable.new 0, rfl,
    push_queue_full_unchanged_c2 (PendingChanges.new 0) sampleCreate
      (Reachable.new 0) rfl⟩

/-- C3: a queue at capacity holding no record for the pushed change's
pair is exactly a queue of the form
`⟨l.filter (fun e => !(sameItem e c)), (l.filter _).length⟩` (take `l` to
be its own record list); pushing `c` on it returns `Err(QueueFull)` with
the record list — hence the length — unchanged.  In general `push`
returns `Err(QueueFull)` exactly when the length after the dedup removal
is still at least `max_size`, and otherwise appends the record at the end
and returns `Ok`. -/
theorem push_capacity_characterization_c3 (l : List SyncChange)
    (c : SyncChange) (r : PendingChanges) (d : SyncChange) :
    (((PendingChanges.mk (l.filter fun e => !(sameItem e c))
        (l.filter fun e => !(sameItem e c)).length).push c).2
      = Except.error SyncError.QueueFull) ∧
    (((PendingChanges.mk (l.filter fun e => !(sameItem e c))
        (l.filter fun e => !(sameItem e c)).length).push c).1.changes
      = l.filter fun e => !(sameItem e c)) ∧
    ((r.push d).2 = (if r.max_size ≤
        (r.changes.filter fun e => !(sameItem e d)).length
      then Except.error SyncError.QueueFull else Except.ok ())) ∧
    ((r.push d).1.changes = (if r.max_size ≤
        (r.changes.filter fun e => !(sameItem e d)).length
      then r.changes.filter fun e => !(sameItem e d)
      else (r.changes.filter fun e => !(sameItem e d)) ++ [d])) ∧
    (r.push d).1.max_size = r.max_size := by
  have hidem : (l.filter fun e => !(sameItem e c)).filter
      (fun e => !(sameItem e c)) = l.filter fun e => !(sameItem e c) := by
    rw [List.filter_filter]
    exact List.filter_congr (fun a _ => Bool.and_self _)
  have hcond : (PendingChanges.mk (l.filter fun e => !(sameItem e c))
        (l.filter fun e => !(sameItem e c)).length).max_size ≤
      ((PendingChanges.mk (l.filter fun e => !(sameItem e c))
        (l.filter fun e => !(sameItem e c)).length).changes.filter
          fun e => !(sameItem e c)).length := by
    show (l.filter fun e => !(sameItem e c)).length ≤ _
    rw [hidem]
  have h1 := (push_unfold (PendingChanges.mk
    (l.filter fun e => !(sameItem e c))
    (l.filter fun e => !(sameItem e c)).length) c).1
  have h2 := (push_unfold (PendingChanges.mk
    (l.filter fun e => !(sameItem e c))
    (l.filter fun e => !(sameItem e c)).length) c).2.1
  rw [if_pos hcond] at h1 h2
  refine ⟨h1, ?_, (push_unfold r d).1, (push_unfold r d).2.1,
    (push_unfold r d).2.2⟩
  rw [h2]
  exact hidem

/-- C4: `drain` returns exactly the queued records in queue order, leaves
the queue empty with the capacity unchanged, and an immediate second
`drain` returns the empty list. -/
theorem drain_all_then_empty_c4 (q : PendingChanges) :
    (q.drain).1 = q.changes ∧
    (q.drain).2.changes = [] ∧
    (q.drain).2.max_size = q.max_size ∧
    ((q.drain).2.drain).1 = [] :=
  ⟨rfl, rfl, rfl, rfl⟩

/-- C7: `remove_synced` deletes exactly the records whose synced flag is
true: the survivors are the unsynced records in their original relative
order (a sublist of the original), the length drops exactly by the number
of synced records, and the capacity is unchanged. -/
theorem remove_synced_spec_c7 (q : PendingChanges) :
    q.remove_synced.changes = q.changes.filter (fun c => !c.synced) ∧
    List.Sublist q.remove_synced.changes q.changes ∧
    q.remove_synced.changes.length +
      (q.changes.filter fun c => c.synced).length = q.changes.length ∧
    q.remove_synced.max_size = q.max_size := by
  refine ⟨rfl, ?_, ?_, rfl⟩
  · exact List.filter_sublist q.changes
  · exact length_filter_not_add_length_filter (fun c => c.synced) q.changes

/-- C8: `SyncChange::create` produces a record with operation `Create`,
version 1 and synced flag false (for the given item type, item id and
payload), and `SyncChange::delete` produces a record with operation
`Delete`, null payload and synced flag false. -/
theorem create_delete_fields_c8 (cid : Nat) (t : Int) (it : SyncItemType)
    (iid : Nat) (d : Json) (v : Int) :
    (SyncChange.create cid t it iid d).operation = SyncOperation.Create ∧
    (SyncChange.create cid t it iid d).version = 1 ∧
    (SyncChange.create cid t it iid d).synced = false ∧
    (SyncChange.create cid t it iid d).item_type = it ∧
    (SyncChange.create cid t it iid d).item_id = iid ∧
    (SyncChange.create cid t it iid d).data = d ∧
    (SyncChange.delete cid t it iid v).operation = SyncOperation.Delete ∧
    (SyncChange.delete cid t it iid v).data = Json.null ∧
    (SyncChange.delete cid t it iid v).synced = false ∧
    (SyncChange.delete cid t it iid v).item_type = it ∧
    (SyncChange.delete cid t it iid v).item_id = iid :=
  ⟨rfl, rfl, rfl, rfl, rfl, rfl, rfl, rfl, rfl, rfl, rfl⟩

/-- C9: `auto_sync_enabled` is true exactly when the mode is one of
`OnlineAuto`, `OnlineManual`, `Hybrid` and the interval is positive; with
the mode replaced by `Offline` it is false whatever the rest of the
configuration (in particular whatever the interval). -/
theorem auto_sync_enabled_iff_c9 (cfg : SyncConfig) :
    (cfg.auto_sync_enabled = true ↔
      ((cfg.mode = SyncMode.OnlineAuto ∨ cfg.mode = SyncMode.OnlineManual ∨
        cfg.mode = SyncMode.Hybrid) ∧ 0 < cfg.auto_sync_interval)) ∧
    ({ cfg with mode := SyncMode.Offline } : SyncConfig).auto_sync_enabled
      = false := by
  obtain ⟨m, su, ak, di, ls, ai, st⟩ := cfg
  constructor
  · cases m <;>
      simp [SyncConfig.auto_sync_enabled, SyncConfig.is_online]
  · simp [SyncConfig.auto_sync_enabled, SyncConfig.is_online]

/-- C10: a `PendingChanges` obtained from the derived `Default` has
`max_size = 0`, every push on it returns `Err(QueueFull)`, and any
sequence of pushes leaves it exactly in the default (empty) state. -/
theorem derive_default_rejects_all_c10 (c : SyncChange)
    (cs : List SyncChange) :
    PendingChanges.deriveDefault.max_size = 0 ∧
    (PendingChanges.deriveDefault.push c).2
      = Except.error SyncError.QueueFull ∧
    (PendingChanges.deriveDefault.push c).1 = PendingChanges.deriveDefault ∧
    pushList PendingChanges.deriveDefault cs = PendingChanges.deriveDefault := by
  refine ⟨rfl, rfl, rfl, ?_⟩
  induction cs with
  | nil => rfl
  | cons d cs ih => exact ih

/-- C5 counterexample: `complete` simply overwrites `completed_at` with
the current time — completing at the very timestamp the session started
(the clock has millisecond resolution) yields a completion time equal to,
not strictly after, the start, and a second `complete` call changes the
already-set completion timestamp, so it is not set exactly once. -/
theorem complete_not_once_nor_strict_c5 :
    ((SyncSession.new 0 0).complete 0).completed_at
      = some ((SyncSession.new 0 0).started_at) ∧
    (((SyncSession.new 0 0).complete 5).complete 3).completed_at
      ≠ ((SyncSession.new 0 0).complete 5).completed_at := by
  exact ⟨rfl, by decide⟩

/-- C5 (amended): `complete` sets the completion timestamp to the time of
the call, overwriting any previous value and leaving the start timestamp
unchanged; `duration` returns a value exactly when the session has been
completed, and completing at time `t` gives duration `t - started_at`. -/
theorem complete_duration_spec_c5 (s : SyncSession) (t : Int) :
    (s.complete t).completed_at = some t ∧
    (s.complete t).started_at = s.started_at ∧
    s.duration.isSome = s.is_complete ∧
    (s.complete t).duration = some (t - s.started_at) := by
  refine ⟨rfl, rfl, ?_, rfl⟩
  cases h : s.completed_at <;>
    simp [SyncSession.duration, SyncSession.is_complete, h]

/-- C6 (modelled from the spec, no resolution code exists under `src/`):
`lastWriteWins` selects the side whose record has the strictly greater
timestamp and selects local on equal timestamps. -/
theorem last_write_wins_spec_c6 (localTs remoteTs : Int) :
    lastWriteWins localTs remoteTs =
      (if localTs < remoteTs then ConflictChoice.Remote
       else ConflictChoice.Local) ∧
    lastWriteWins localTs localTs = ConflictChoice.Local := by
  refine ⟨rfl, ?_⟩
  simp [lastWriteWins]

end Postboy
